import Mathlib

/-!
Verification of the melty RPC bridge, task orchestration and git adapter.

This file shallowly embeds:
* `RpcClient` (webview-ui/src/RpcClient.ts) — the Caller side of the bridge:
  id allocation in `run` and response correlation in `handleMessage`;
* `HelloWorldPanel` (host side) — the RPC responder handlers
  `rpcChatMessage`, `rpcDeactivateTask`, `rpcUndoLatestCommit`,
  `rpcGetGitConfigErrors` and the error path of `handleRPCCall`;
* `GitManager` — the version-control adapter (`init`, `commitLocalChanges`,
  `getLatestCommitHash`, `undoLastCommit`, `getUdiffFromCommit`).

Machine integers do not occur; ids are `Nat`.  JavaScript `null`/`undefined`,
string truthiness, `typeof`, and thrown exceptions are modelled explicitly
(`Option`, `Except`, a small `JsVal` universe) where the code's behaviour
depends on them.
-/

/-! ## RPC Caller side (`RpcClient.ts`) -/

/-- A wire message as seen by `RpcClient.handleMessage` (`message = event.data`):
a `type` tag, a correlation `id`, and optional `result` / `error` payloads.
Payloads are opaque on the wire; they are modelled as strings. -/
structure Envelope where
  type : String
  id : Nat
  result : Option String
  error : Option String
deriving DecidableEq, Repr

/-- JavaScript truthiness of the optional `error` field, as tested by
`if (message.error)`: absent (`undefined`) and the empty string are falsy. -/
def errTruthy : Option String → Bool
  | none => false
  | some e => e ≠ ""

/-- State of one `RpcClient` instance: the `messageId` counter and the set of
ids with a recorded `PendingCall` (the map's resolve/reject continuations are
represented by the outcome events below, keyed by id). -/
structure ClientState where
  messageId : Nat
  pending : List Nat
deriving DecidableEq, Repr

/-- Observable outcome of handling one incoming message: a pending call's
promise is resolved or rejected with the envelope's payload, or an unmatched
response is dropped with a console warning. -/
inductive ClientEvent where
  | resolved (id : Nat) (result : Option String)
  | rejected (id : Nat) (error : Option String)
  | warnUnknown (id : Nat)
deriving DecidableEq, Repr

/-- The id an event concerns. -/
def ClientEvent.eid : ClientEvent → Nat
  | .resolved i _ => i
  | .rejected i _ => i
  | .warnUnknown i => i

/-- An event that actually settles a promise (not a dropped-response warning). -/
def ClientEvent.isSettlement : ClientEvent → Bool
  | .resolved _ _ => true
  | .rejected _ _ => true
  | .warnUnknown _ => false

/-- `RpcClient.run`: allocate `id = ++messageId`, record a pending call,
post the `Call` envelope.  Returns the allocated id and the new state. -/
def RpcClient.run (st : ClientState) : Nat × ClientState :=
  let id := st.messageId + 1
  (id, { messageId := id, pending := st.pending ++ [id] })

/-- State after `n` consecutive `RpcClient.run` calls from a fresh client. -/
def runCalls : Nat → ClientState
  | 0 => { messageId := 0, pending := [] }
  | n + 1 => (RpcClient.run (runCalls n)).2

/-- The settlement produced for a matched response envelope: `reject` when the
`error` field is truthy, otherwise `resolve` with the `result` field. -/
def eventOf (m : Envelope) : ClientEvent :=
  if errTruthy m.error then .rejected m.id m.error else .resolved m.id m.result

/-- `RpcClient.handleMessage`: ignore non-`rpcResponse` messages; for a
response whose id has a pending entry, delete the entry and settle its
promise with this envelope's payload; otherwise log a warning and drop it. -/
def RpcClient.handleMessage (m : Envelope) (st : ClientState) :
    ClientState × List ClientEvent :=
  if m.type = "rpcResponse" then
    if m.id ∈ st.pending then
      ({ st with pending := st.pending.erase m.id }, [eventOf m])
    else
      (st, [.warnUnknown m.id])
  else
    (st, [])

/-- Deliver a list of incoming messages in order, accumulating events. -/
def processMessages : List Envelope → ClientState → ClientState × List ClientEvent
  | [], st => (st, [])
  | m :: rest, st =>
    let p := RpcClient.handleMessage m st
    let q := processMessages rest p.1
    (q.1, p.2 ++ q.2)

/-! ## Version-control adapter (`GitManager`) -/

/-- A commit as exposed by the git extension API: a hash and parent hashes. -/
structure Commit where
  hash : String
  parents : List String
deriving DecidableEq, Repr

/-- One entry of `diffWithHEAD()`: a path and its `gitIgnored` flag. -/
structure Change where
  path : String
  gitIgnored : Bool
deriving DecidableEq, Repr

/-- The external repository handle's observable state (`repo.sitory.state`
plus its commit history, most recent commit first — `commits.head?` is HEAD). -/
structure Repository where
  commits : List Commit
  diffWithHEAD : List Change
  indexChanges : List String
  workingTreeChanges : List String
  mergeChanges : List String
deriving DecidableEq, Repr

/-- `GitManager` state: `repo` is `none` before `init` succeeds
(`this.repo === undefined`). -/
structure GMState where
  repo : Option Repository
deriving DecidableEq, Repr

/-- The host environment `init` probes: whether the `vscode.git` extension is
present, its repositories (workspace-root path paired with the repo), and the
workspace root.  (`this.workspaceRoot` may be the empty string for the JS
falsy check.) -/
structure HostEnv where
  gitExtensionPresent : Bool
  repositories : List (String × Repository)
  workspaceRoot : String

/-- `GitManager.init`: resolve the repository at the workspace root, set
`this.repo`, return an error string on failure, `undefined` on success. -/
def GitManager.init (env : HostEnv) (s : GMState) : GMState × Option String :=
  if ¬ env.gitExtensionPresent then (s, some "Git extension not found")
  else if env.repositories.isEmpty then (s, some "No git repositories found")
  else if env.workspaceRoot = "" then (s, some "No workspace folder found")
  else
    match env.repositories.find? (fun r => r.1 = env.workspaceRoot) with
    | none => (s, some "No git repository found at workspace root")
    | some r => ({ repo := some r.2 }, none)

/-- `GitManager.getLatestCommitHash`: `getCommit('HEAD').hash` inside
try/catch; any failure (uninitialized handle, empty history) is caught and
reported as `undefined` (`none`). -/
def GitManager.getLatestCommitHash (s : GMState) : Option String :=
  match s.repo with
  | none => none
  | some r => r.commits.head?.map Commit.hash

/-- `GitManager.repoIsClean`: working-tree, index and merge change-sets all
empty; any internal failure is caught and reported as `false`. -/
def GitManager.repoIsClean (s : GMState) : Bool :=
  match s.repo with
  | none => false
  | some r =>
    r.workingTreeChanges.isEmpty && r.indexChanges.isEmpty && r.mergeChanges.isEmpty

/-- The `TypeError` raised by `this.repo!.sitory` when `this.repo` is
`undefined`. -/
def repoTypeErrorMsg : String :=
  "TypeError: Cannot read properties of undefined (reading sitory)"

/-- `GitManager.commitLocalChanges` — the one public method with NO try/catch
wrapper: stage every non-ignored change from `diffWithHEAD()`, commit only if
the index is non-empty, return the number of index changes.  With the handle
uninitialized, `this.repo!.sitory.status()` throws a `TypeError` that
propagates to the caller (modelled as `.error`).  The external pieces —
`generateCommitMessage` and the working diff `repo.diff("HEAD")` — are the
parameters `msgGen` and `diffHEAD`; the external commit is modelled as
prepending a commit whose parent is the previous HEAD. -/
def GitManager.commitLocalChanges (s : GMState) (msgGen : String → String)
    (diffHEAD : Repository → String) : Except String (GMState × Nat) :=
  match s.repo with
  | none => .error repoTypeErrorMsg
  | some r =>
    let nonIgnored := r.diffWithHEAD.filter (fun c => !c.gitIgnored)
    let staged :=
      { r with indexChanges := r.indexChanges ++ nonIgnored.map Change.path }
    let n := staged.indexChanges.length
    if n > 0 then
      let message := msgGen (diffHEAD staged)
      let committed :=
        { staged with
          commits := ⟨"commit:" ++ message,
                      (staged.commits.head?.map Commit.hash).toList⟩ :: staged.commits,
          indexChanges := [],
          diffWithHEAD := [] }
      .ok ({ repo := some committed }, n)
    else
      .ok ({ repo := some staged }, n)

/-- The refusal message for a stale undo request. -/
def staleUndoMsg : String :=
  "The specified commit is not the latest commit. Cannot undo."

/-- The effect of `repo.repository.reset("HEAD~1", true)`: drop the head
commit (the external hard reset is modelled as succeeding). -/
def resetHead (s : GMState) : GMState :=
  { repo := s.repo.map (fun r => { r with commits := r.commits.tail }) }

/-- `GitManager.undoLastCommit`: refuse unless `commitId` equals the current
latest commit hash; otherwise hard-reset to `HEAD~1` and return `null`.  In
the (unreachable) case where the guard passes without an initialized repo the
catch branch reports an error string. -/
def GitManager.undoLastCommit (s : GMState) (commitId : String) :
    GMState × Option String :=
  if GitManager.getLatestCommitHash s = some commitId then
    match s.repo with
    | some r => ({ repo := some { r with commits := r.commits.tail } }, none)
    | none => (s, some "Error undoing last commit: TypeError")
  else
    (s, some staleUndoMsg)

/-- The udiff computed for a single-parent commit: per changed path, the diff
between `base` and `c`, joined with newlines.  `diffBetween base c` lists the
changed paths between the two refs and `diffFile base c path` is the per-path
udiff — both external git operations, passed as parameters. -/
def computedUdiff (diffBetween : String → String → List String)
    (diffFile : String → String → String → String) (base c : String) : String :=
  String.intercalate "\n" ((diffBetween base c).map (diffFile base c))

/-- The body of `GitManager.getUdiffFromCommit` inside its try block, with
thrown errors made explicit (`.error` = an exception reaches the catch):
uninitialized handle throws; no commits yet returns `''`; an unresolvable
commit id rejects; a commit with other than exactly one parent returns `""`;
a single-parent commit returns the computed diff against `commit + "^"`. -/
def GitManager.getUdiffInner (s : GMState) (commit : Option String)
    (diffBetween : String → String → List String)
    (diffFile : String → String → String → String) : Except String String :=
  match s.repo with
  | none => .error repoTypeErrorMsg
  | some r =>
    match r.commits.head? with
    | none => .ok ""
    | some headCommit =>
      let c := commit.getD headCommit.hash
      match r.commits.find? (fun co => co.hash = c) with
      | none => .error ("unknown commit " ++ c)
      | some co =>
        if co.parents.length = 1 then
          .ok (computedUdiff diffBetween diffFile (c ++ "^") c)
        else
          .ok ""

/-- `GitManager.getUdiffFromCommit`: the try body with the catch wrapper that
converts any thrown error into `""`. -/
def GitManager.getUdiffFromCommit (s : GMState) (commit : Option String)
    (diffBetween : String → String → List String)
    (diffFile : String → String → String → String) : String :=
  match GitManager.getUdiffInner s commit diffBetween diffFile with
  | .ok v => v
  | .error _ => ""

/-! ## JavaScript value modelling for the un-awaited handler bugs -/

/-- The JavaScript values the panel handlers actually compare: `null`, a
string, or a pending `Promise` object (the value of an `async` call without
`await`). -/
inductive JsVal where
  | jsNull
  | jsStr (s : String)
  | jsPromise
deriving DecidableEq, Repr

/-- JavaScript `typeof`. -/
def jsTypeof : JsVal → String
  | .jsNull => "object"
  | .jsStr _ => "string"
  | .jsPromise => "object"

/-- JavaScript string coercion, as in template-literal interpolation. -/
def jsValToString : JsVal → String
  | .jsNull => "null"
  | .jsStr s => s
  | .jsPromise => "[object Promise]"

/-! ## Conversation model and host-side events -/

/-- Turn author (spec: "Joule" authors Human, Bot, Error). -/
inductive Author where
  | human
  | bot
  | error
deriving DecidableEq, Repr

/-- One conversation turn. -/
structure Joule where
  author : Author
  text : String
deriving DecidableEq, Repr

/-- The task state the chat handlers mutate: its append-only conversation. -/
structure MeltyTask where
  conversation : List Joule
deriving DecidableEq, Repr

/-- Host-side observable events, in emission order: status-bar pushes, task
snapshot pushes (`sendNotification "updateTask"`, carrying the conversation),
editor notifications, and the `rpcResponse` envelope posted by the message
listener. -/
inductive HostEvent where
  | statusMsg (s : String)
  | statusReset
  | pushTask (conv : List Joule)
  | editorError (s : String)
  | editorInfo (s : String)
  | rpcResult (id : Nat)
  | rpcError (id : Nat) (msg : String)
deriving DecidableEq, Repr

/-- `true` for the `rpcResponse` envelope events (call resolution/rejection). -/
def HostEvent.isRpcResponse : HostEvent → Bool
  | .rpcResult _ => true
  | .rpcError _ _ => true
  | _ => false

/-- Conversation lengths of the pushed task snapshots, in push order. -/
def pushLengths (evs : List HostEvent) : List Nat :=
  evs.filterMap (fun e =>
    match e with
    | .pushTask c => some c.length
    | _ => none)

/-! ## Panel RPC handlers -/

/-- `HelloWorldPanel.rpcDeactivateTask`: `errMessage = await
taskManager.deactivate(taskId)`; a truthy error shows a notification and
returns `false` — and the success path ALSO returns `false`. -/
def rpcDeactivateTask (taskId : String) (deactivateResult : Option String) :
    List HostEvent × Bool :=
  if errTruthy deactivateResult then
    ([.editorError ("Failed to deactivate task " ++ taskId ++ ": " ++
        deactivateResult.getD "")], false)
  else
    ([], false)

/-- `HelloWorldPanel.rpcActivateTask` (the success path returns `true`,
mirroring what `rpcDeactivateTask` was evidently meant to do). -/
def rpcActivateTask (taskId : String) (activateResult : Option String) :
    List HostEvent × Bool :=
  if errTruthy activateResult then
    ([.editorError ("Failed to activate task " ++ taskId ++ ": " ++
        activateResult.getD "")], false)
  else
    ([], true)

/-- `HelloWorldPanel.rpcUndoLatestCommit`: calls
`this._gitManager.undoLastCommit(commitId)` WITHOUT `await`, so `errMessage`
holds a `Promise` object (never `null`); the underlying async undo still
runs, so the state effect is kept. -/
def rpcUndoLatestCommit (s : GMState) (commitId : String) :
    GMState × HostEvent :=
  let s1 := (GitManager.undoLastCommit s commitId).1
  let errMessage : JsVal := .jsPromise
  if errMessage = .jsNull then
    (s1, .editorInfo "Last commit has been undone by hard reset.")
  else
    (s1, .editorError ("Failed to undo last commit: " ++ jsValToString errMessage))

/-- `HelloWorldPanel.rpcGetGitConfigErrors`: calls `this._gitManager.init()`
WITHOUT `await`, so `result` holds a `Promise` object and the
`typeof result === "string"` test decides the returned string. -/
def rpcGetGitConfigErrors (env : HostEnv) (s : GMState) : GMState × String :=
  let s1 := (GitManager.init env s).1
  let result : JsVal := .jsPromise
  (s1, if jsTypeof result = "string" then jsValToString result else "")

/-! ## Chat orchestration (`rpcChatMessage` and the `handleRPCCall` error path)

`Task.respondHuman`, `Task.respondBot` and `Task.addErrorJoule` live in
backend files that are not under `src/`; they are modelled from the spec
where marked. -/

/-- Modelled from the spec: `Task.respondHuman` (not under `src/`; §4.3
"appends a Human turn synchronously"). -/
def MeltyTask.respondHuman (t : MeltyTask) (text : String) : MeltyTask :=
  { conversation := t.conversation ++ [⟨.human, text⟩] }

/-- Modelled from the spec: `Task.addErrorJoule` (not under `src/`; §4.3/§7:
appends an Error turn to the conversation). -/
def MeltyTask.addErrorJoule (t : MeltyTask) (msg : String) : MeltyTask :=
  { conversation := t.conversation ++ [⟨.error, msg⟩] }

/-- Modelled from the spec: the sequence of partial `Conversation` snapshots
`Task.respondBot` hands to `processPartial` (not under `src/`; §4.3: full
self-consistent snapshots in production order; §3: a streaming bot turn
repeatedly extends the last entry, never duplicates).  `chunks` are the text
pieces produced in order; the i-th snapshot appends one bot turn holding the
first `i + 1` pieces. -/
def botPartials (conv : List Joule) (chunks : List String) : List (List Joule) :=
  (List.range chunks.length).map
    (fun i => conv ++ [⟨.bot, String.join (chunks.take (i + 1))⟩])

/-- Modelled from the spec: the task's conversation at the moment
`respondBot` fails after producing `chunks` (§3 append-only streaming: the
partial bot turn, if any, is the extended last entry). -/
def botFailConversation (conv : List Joule) (chunks : List String) : List Joule :=
  if chunks.isEmpty then conv else conv ++ [⟨.bot, String.join chunks⟩]

/-- Outcome of the external bot-response production: the text chunks streamed
before it either finishes or fails with an error message. -/
inductive BotOutcome where
  | success (chunks : List String)
  | failure (chunks : List String) (msg : String)

/-- `HelloWorldPanel.rpcChatMessage` on an active task: push the "Starting
up" status, append the human turn and push the task, stream the bot partial
snapshots via `processPartial`, then on success push the final task state and
reset the status; on failure propagate the error.  Returns the RPC outcome,
the task state afterwards, and the emitted events in order. -/
def rpcChatMessage (t : MeltyTask) (text : String) (bot : BotOutcome) :
    Except String Unit × MeltyTask × List HostEvent :=
  let t1 := t.respondHuman text
  let evs1 := [HostEvent.statusMsg "Starting up", HostEvent.pushTask t1.conversation]
  match bot with
  | .success chunks =>
    let evsP := (botPartials t1.conversation chunks).map HostEvent.pushTask
    let t2 : MeltyTask := { conversation := t1.conversation ++ [⟨.bot, String.join chunks⟩] }
    (.ok (), t2,
      evs1 ++ evsP ++ [HostEvent.pushTask t2.conversation, HostEvent.statusReset])
  | .failure chunks msg =>
    let evsP := (botPartials t1.conversation chunks).map HostEvent.pushTask
    let tf : MeltyTask := { conversation := botFailConversation t1.conversation chunks }
    (.error msg, tf, evs1 ++ evsP)

/-- The repo-missing message specially cased in `handleRPCCall`. -/
def nullRepoMsg : String := "Cannot read properties of null (reading 'repository')"

/-- One full `chatMessage` call with id `id`, as dispatched by
`_setWebviewMessageListener` through `handleRPCCall`: on success the listener
posts `rpcResponse{result}`; on failure the catch branch shows an editor
notification, appends an Error turn and pushes the updated task
(`notifyWebviewOfChatError`), resets the status message, and re-throws so the
listener posts `rpcResponse{error}`. -/
def chatCall (id : Nat) (t : MeltyTask) (text : String) (bot : BotOutcome) :
    MeltyTask × List HostEvent :=
  match rpcChatMessage t text bot with
  | (.ok _, t2, evs) => (t2, evs ++ [HostEvent.rpcResult id])
  | (.error msg, tf, evs) =>
    let notif : HostEvent :=
      if msg = nullRepoMsg then
        .editorError "Melty didn't see a git repo in your root directory. Create one?"
      else
        .editorError ("Melty internal error: " ++ msg ++ ". Please try again.")
    let terr := tf.addErrorJoule msg
    (terr, evs ++ [notif, HostEvent.pushTask terr.conversation,
                   HostEvent.statusReset, HostEvent.rpcError id msg])

/-- A concrete two-commit repository used by witnesses. -/
def sampleRepoState : GMState :=
  { repo := some
      { commits := [⟨"abc", ["p0"]⟩, ⟨"p0", []⟩]
        diffWithHEAD := []
        indexChanges := []
        workingTreeChanges := []
        mergeChanges := [] } }

/-- A repository with no commits yet. -/
def emptyRepo : Repository :=
  { commits := [], diffWithHEAD := [], indexChanges := []
    workingTreeChanges := [], mergeChanges := [] }

/-- A repository with a merge commit `m` (two parents), an ordinary commit
`a` (one parent) and a root commit `r` (no parents). -/
def sampleMergeRepo : Repository :=
  { commits := [⟨"m", ["a", "b"]⟩, ⟨"a", ["r"]⟩, ⟨"r", []⟩]
    diffWithHEAD := [], indexChanges := []
    workingTreeChanges := [], mergeChanges := [] }

/-- Concrete external changed-paths function for witnesses. -/
def wDb : String → String → List String := fun _ _ => ["f.ts"]

/-- Concrete external per-path diff function for witnesses. -/
def wDf : String → String → String → String := fun _ _ _ => "DIFF"

/-! ## Theorems -/

theorem runCalls_pending (n : Nat) :
    (runCalls n).pending = (List.range n).map (· + 1) ∧ (runCalls n).messageId = n := by
  induction n with
  | zero => simp [runCalls]
  | succ k ih =>
    refine ⟨?_, ?_⟩ <;>
      simp [runCalls, RpcClient.run, ih.1, ih.2, List.range_succ]

theorem processMessages_distinct (msgs : List Envelope) (st : ClientState)
    (hty : ∀ m ∈ msgs, m.type = "rpcResponse")
    (hnd : (msgs.map Envelope.id).Nodup)
    (hin : ∀ m ∈ msgs, m.id ∈ st.pending) :
    (processMessages msgs st).2 = msgs.map eventOf := by
  induction msgs generalizing st with
  | nil => rfl
  | cons m rest ih =>
    have hmem : m.id ∈ st.pending := hin m (by simp)
    have hhd : RpcClient.handleMessage m st =
        ({ st with pending := st.pending.erase m.id }, [eventOf m]) := by
      simp [RpcClient.handleMessage, hty m (by simp), hmem]
    have hnd' : (rest.map Envelope.id).Nodup := (List.nodup_cons.mp hnd).2
    have hne : ∀ m' ∈ rest, m'.id ≠ m.id := by
      intro m' hm' h
      exact (List.nodup_cons.mp hnd).1 (h ▸ List.mem_map_of_mem Envelope.id hm')
    have hin' : ∀ m' ∈ rest, m'.id ∈ st.pending.erase m.id := by
      intro m' hm'
      exact (List.mem_erase_of_ne (hne m' hm')).mpr (hin m' (by simp [hm']))
    simp only [processMessages, hhd]
    rw [ih _ (fun m' h => hty m' (by simp [h])) hnd' hin']
    rfl

theorem eventOf_eid (m : Envelope) : (eventOf m).eid = m.id := by
  unfold eventOf
  by_cases h : errTruthy m.error <;> simp [h, ClientEvent.eid]

theorem filter_eventOf_not_mem (l : List Envelope) (i : Nat)
    (h : i ∉ l.map Envelope.id) :
    (l.map eventOf).filter (fun e => e.eid = i) = [] := by
  induction l with
  | nil => rfl
  | cons m rest ih =>
    have h1 : m.id ≠ i := fun he => h (by simp [he])
    have h2 : i ∉ rest.map Envelope.id := fun he => h (by simp [he])
    simp only [List.map_cons, List.filter_cons]
    rw [ih h2]
    simp [eventOf_eid, h1]

theorem filter_eventOf_mem (l : List Envelope) (m : Envelope)
    (hnd : (l.map Envelope.id).Nodup) (hm : m ∈ l) :
    (l.map eventOf).filter (fun e => e.eid = m.id) = [eventOf m] := by
  induction l with
  | nil => cases hm
  | cons a rest ih =>
    rcases List.mem_cons.mp hm with h | h
    · subst h
      have h0 := filter_eventOf_not_mem rest m.id (List.nodup_cons.mp hnd).1
      simp [List.filter_cons, eventOf_eid, h0]
    · have hne : a.id ≠ m.id := by
        intro he
        exact (List.nodup_cons.mp hnd).1 (he ▸ List.mem_map_of_mem Envelope.id h)
      simp only [List.map_cons, List.filter_cons, eventOf_eid]
      rw [ih (List.nodup_cons.mp hnd).2 h]
      simp [hne]

/-- **C1.** For every batch of concurrent calls issued through `RpcClient.run`
(ids `1..n` pending) and every arrival order of `rpcResponse` envelopes, one
per call with distinct ids, each call's promise is settled (resolved or
rejected) exactly once, and its settlement carries the payload of the
`CallResult` envelope bearing that call's own id. -/
theorem rpcClient_each_call_settled_once (n : Nat) (msgs : List Envelope)
    (hty : ∀ m ∈ msgs, m.type = "rpcResponse")
    (hnd : (msgs.map Envelope.id).Nodup)
    (hin : ∀ m ∈ msgs, m.id ∈ (runCalls n).pending)
    (hcover : ∀ i ∈ (runCalls n).pending, i ∈ msgs.map Envelope.id) :
    (∀ m ∈ msgs,
      ((processMessages msgs (runCalls n)).2.filter (fun e => e.eid = m.id)) =
        [eventOf m]) ∧
    (∀ i ∈ (runCalls n).pending,
      ((processMessages msgs (runCalls n)).2.filter (fun e => e.eid = i)).length = 1) := by
  have hev := processMessages_distinct msgs (runCalls n) hty hnd hin
  constructor
  · intro m hm
    rw [hev]
    exact filter_eventOf_mem msgs m hnd hm
  · intro i hi
    rcases List.mem_map.mp (hcover i hi) with ⟨m, hm, hid⟩
    subst hid
    rw [hev, filter_eventOf_mem msgs m hnd hm]
    rfl

/-- Witness for C1: two concurrent calls, responses arriving in reverse order;
call 1 resolves with its own result, call 2 rejects with its own error. -/
theorem rpcClient_each_call_settled_once_witness :
    (∀ m ∈ [Envelope.mk "rpcResponse" 2 none (some "boom"),
            Envelope.mk "rpcResponse" 1 (some "ok") none],
      ((processMessages
          [Envelope.mk "rpcResponse" 2 none (some "boom"),
           Envelope.mk "rpcResponse" 1 (some "ok") none] (runCalls 2)).2.filter
        (fun e => e.eid = m.id)) = [eventOf m]) ∧
    (∀ i ∈ (runCalls 2).pending,
      ((processMessages
          [Envelope.mk "rpcResponse" 2 none (some "boom"),
           Envelope.mk "rpcResponse" 1 (some "ok") none] (runCalls 2)).2.filter
        (fun e => e.eid = i)).length = 1) :=
  rpcClient_each_call_settled_once 2
    [Envelope.mk "rpcResponse" 2 none (some "boom"),
     Envelope.mk "rpcResponse" 1 (some "ok") none]
    (by decide) (by decide) (by decide) (by decide)

/-- **C2.** An `rpcResponse` whose id has no pending entry is dropped with a
warning only: the client state (hence every other pending call's entry) is
unchanged, no promise is settled, the handler is total (no crash), and the
settlements produced by any later messages are exactly those produced had the
unknown response never arrived. -/
theorem rpcClient_unknown_id_dropped (m : Envelope) (st : ClientState)
    (hty : m.type = "rpcResponse") (hid : m.id ∉ st.pending) :
    RpcClient.handleMessage m st = (st, [.warnUnknown m.id]) ∧
    (∀ rest : List Envelope,
      ((processMessages (m :: rest) st).2.filter ClientEvent.isSettlement =
        (processMessages rest st).2.filter ClientEvent.isSettlement) ∧
      (processMessages (m :: rest) st).1 = (processMessages rest st).1) := by
  have hhd : RpcClient.handleMessage m st = (st, [.warnUnknown m.id]) := by
    simp [RpcClient.handleMessage, hty, hid]
  refine ⟨hhd, fun rest => ?_⟩
  simp only [processMessages, hhd]
  constructor
  · simp [List.filter_append, ClientEvent.isSettlement]
  · trivial

/-- Witness for C2: from a client with calls 1 and 2 pending, a response with
id 7 is dropped with a warning, and a later response for call 1 still resolves
exactly as it would have. -/
theorem rpcClient_unknown_id_dropped_witness :
    RpcClient.handleMessage (Envelope.mk "rpcResponse" 7 none none) (runCalls 2) =
      (runCalls 2, [.warnUnknown 7]) ∧
    (∀ rest : List Envelope,
      ((processMessages (Envelope.mk "rpcResponse" 7 none none :: rest)
          (runCalls 2)).2.filter ClientEvent.isSettlement =
        (processMessages rest (runCalls 2)).2.filter ClientEvent.isSettlement) ∧
      (processMessages (Envelope.mk "rpcResponse" 7 none none :: rest)
          (runCalls 2)).1 = (processMessages rest (runCalls 2)).1) :=
  rpcClient_unknown_id_dropped (Envelope.mk "rpcResponse" 7 none none)
    (runCalls 2) (by decide) (by decide)

/-! ### Git adapter theorems -/

/-- **C4 (code bug exhibit).** A `deactivateTask` call whose underlying
`TaskManager.deactivate` reports no error shows no error notification yet
still returns `false` to the caller (the spec's scenario and the parallel
`rpcActivateTask` success path return `true`). -/
theorem rpcDeactivateTask_success_returns_false (taskId : String) :
    rpcDeactivateTask taskId none = ([], false) ∧
    rpcActivateTask taskId none = ([], true) :=
  ⟨rfl, rfl⟩

/-- **C5 (code bug exhibit).** `commitLocalChanges` invoked before the
repository handle is initialized propagates a raw `TypeError` instead of a
sentinel — unlike the sibling public operations, which catch the same
failure and report `false` / `undefined`. -/
theorem commitLocalChanges_throws_uninitialized
    (msgGen : String → String) (diffHEAD : Repository → String) :
    GitManager.commitLocalChanges ⟨none⟩ msgGen diffHEAD =
      .error repoTypeErrorMsg ∧
    GitManager.repoIsClean ⟨none⟩ = false ∧
    GitManager.getLatestCommitHash ⟨none⟩ = none :=
  ⟨rfl, rfl, rfl⟩

/-- **C6.** `undoLastCommit` performs the hard reset (dropping the head
commit) and returns `null` exactly when the given id equals the current
latest commit hash; for any other id it returns the non-null stale-undo
error, leaves the whole state (hence HEAD) unchanged, and performs no
reset. -/
theorem undoLastCommit_stale_guard (s : GMState) (cid : String) :
    (GitManager.getLatestCommitHash s = some cid →
      GitManager.undoLastCommit s cid = (resetHead s, none)) ∧
    (GitManager.getLatestCommitHash s ≠ some cid →
      GitManager.undoLastCommit s cid = (s, some staleUndoMsg) ∧
      GitManager.getLatestCommitHash (GitManager.undoLastCommit s cid).1 =
        GitManager.getLatestCommitHash s) := by
  constructor
  · intro h
    unfold GitManager.undoLastCommit
    rw [if_pos h]
    cases hrepo : s.repo with
    | none => simp [GitManager.getLatestCommitHash, hrepo] at h
    | some r => simp [resetHead, hrepo]
  · intro h
    have he : GitManager.undoLastCommit s cid = (s, some staleUndoMsg) := by
      unfold GitManager.undoLastCommit
      rw [if_neg h]
    exact ⟨he, by rw [he]⟩

/-- Witness for C6 on a two-commit repository: undo with the latest hash
resets and returns `null`; undo with a stale hash refuses, leaves the state
and HEAD unchanged. -/
theorem undoLastCommit_stale_guard_witness :
    GitManager.undoLastCommit sampleRepoState "abc" = (resetHead sampleRepoState, none) ∧
    (GitManager.undoLastCommit sampleRepoState "zzz" = (sampleRepoState, some staleUndoMsg) ∧
      GitManager.getLatestCommitHash (GitManager.undoLastCommit sampleRepoState "zzz").1 =
        GitManager.getLatestCommitHash sampleRepoState) :=
  ⟨(undoLastCommit_stale_guard sampleRepoState "abc").1 (by decide),
   (undoLastCommit_stale_guard sampleRepoState "zzz").2 (by decide)⟩

/-- **C7.** `getUdiffFromCommit`'s try body returns the empty string — not a
thrown error — both when the repository has no commits and when the target
commit has other than exactly one parent; only a single-parent commit
produces the computed diff against `commit + "^"`. -/
theorem getUdiffFromCommit_boundaries (r : Repository) (c : String)
    (diffBetween : String → String → List String)
    (diffFile : String → String → String → String) :
    (∀ copt, r.commits = [] →
      GitManager.getUdiffInner ⟨some r⟩ copt diffBetween diffFile = .ok "") ∧
    (∀ co, r.commits.find? (fun x => x.hash = c) = some co →
      co.parents.length ≠ 1 →
      GitManager.getUdiffInner ⟨some r⟩ (some c) diffBetween diffFile = .ok "") ∧
    (∀ co, r.commits.find? (fun x => x.hash = c) = some co →
      co.parents.length = 1 →
      GitManager.getUdiffInner ⟨some r⟩ (some c) diffBetween diffFile =
        .ok (computedUdiff diffBetween diffFile (c ++ "^") c)) := by
  refine ⟨?_, ?_, ?_⟩
  · intro copt hnil
    simp [GitManager.getUdiffInner, hnil]
  · intro co hfind hne
    have hcons : r.commits ≠ [] := by
      intro h0
      rw [h0] at hfind
      cases hfind
    obtain ⟨h0, tl, hc⟩ := List.exists_cons_of_ne_nil hcons
    rw [hc] at hfind
    simp [GitManager.getUdiffInner, hc, hfind, hne]
  · intro co hfind hone
    have hcons : r.commits ≠ [] := by
      intro h0
      rw [h0] at hfind
      cases hfind
    obtain ⟨h0, tl, hc⟩ := List.exists_cons_of_ne_nil hcons
    rw [hc] at hfind
    simp [GitManager.getUdiffInner, hc, hfind, hone]

/-- Witness for C7: empty string for an empty repository, for the merge
commit `m` and for the root commit `r`; the computed diff for the
single-parent commit `a`. -/
theorem getUdiffFromCommit_boundaries_witness :
    GitManager.getUdiffInner ⟨some emptyRepo⟩ none wDb wDf = .ok "" ∧
    GitManager.getUdiffInner ⟨some sampleMergeRepo⟩ (some "m") wDb wDf = .ok "" ∧
    GitManager.getUdiffInner ⟨some sampleMergeRepo⟩ (some "r") wDb wDf = .ok "" ∧
    GitManager.getUdiffInner ⟨some sampleMergeRepo⟩ (some "a") wDb wDf =
      .ok (computedUdiff wDb wDf ("a" ++ "^") "a") :=
  ⟨(getUdiffFromCommit_boundaries emptyRepo "x" wDb wDf).1 none rfl,
   (getUdiffFromCommit_boundaries sampleMergeRepo "m" wDb wDf).2.1
     ⟨"m", ["a", "b"]⟩ (by decide) (by decide),
   (getUdiffFromCommit_boundaries sampleMergeRepo "r" wDb wDf).2.1
     ⟨"r", []⟩ (by decide) (by decide),
   (getUdiffFromCommit_boundaries sampleMergeRepo "a" wDb wDf).2.2
     ⟨"a", ["r"]⟩ (by decide) (by decide)⟩

/-- **C9.** The `undoLatestCommit` handler compares the un-awaited `Promise`
returned by `GitManager.undoLastCommit` against `null`; the comparison never
holds, so for every repository state and commit id it shows the
failure notification and never the success notification — even when the
underlying undo succeeded. -/
theorem rpcUndoLatestCommit_always_reports_failure (s : GMState) (cid : String) :
    (rpcUndoLatestCommit s cid).2 =
      .editorError ("Failed to undo last commit: " ++ jsValToString JsVal.jsPromise) ∧
    ∀ e, (rpcUndoLatestCommit s cid).2 ≠ HostEvent.editorInfo e := by
  refine ⟨rfl, fun e h => ?_⟩
  have h1 : (rpcUndoLatestCommit s cid).2 =
      .editorError ("Failed to undo last commit: " ++ jsValToString JsVal.jsPromise) := rfl
  rw [h1] at h
  cases h

/-- **C10.** The `getGitConfigErrors` handler holds the un-awaited `Promise`
returned by `GitManager.init`, whose `typeof` is `"object"`, so the handler
returns the empty string for every environment and state and never surfaces
an initialization error message. -/
theorem rpcGetGitConfigErrors_always_empty (env : HostEnv) (s : GMState) :
    (rpcGetGitConfigErrors env s).2 = "" ∧
    jsTypeof JsVal.jsPromise ≠ "string" :=
  ⟨rfl, by decide⟩

/-! ### Chat streaming theorems -/

theorem getLast_append_single {α : Type} (l : List α) (x : α) :
    (l ++ [x]).getLast? = some x := by
  rw [List.getLast?_concat]

theorem dropLast_append_single {α : Type} (l : List α) (x : α) :
    (l ++ [x]).dropLast = l := by
  rw [List.dropLast_concat]

theorem pushLengths_append (l1 l2 : List HostEvent) :
    pushLengths (l1 ++ l2) = pushLengths l1 ++ pushLengths l2 := by
  simp [pushLengths, List.filterMap_append]

theorem pushLengths_map_pushTask (l : List (List Joule)) :
    pushLengths (l.map HostEvent.pushTask) = l.map List.length := by
  induction l with
  | nil => rfl
  | cons a tl ih => simp [pushLengths, List.filterMap_cons] at ih ⊢; exact ih

theorem botPartials_lengths (conv : List Joule) (chunks : List String) :
    (botPartials conv chunks).map List.length =
      List.replicate chunks.length (conv.length + 1) := by
  unfold botPartials
  rw [List.map_map]
  have h : (List.length ∘ fun i : Nat =>
      conv ++ [(⟨Author.bot, String.join (chunks.take (i + 1))⟩ : Joule)]) =
      fun _ : Nat => conv.length + 1 := by
    funext i
    simp
  rw [h, List.map_const', List.length_range]

theorem chain_le_cons_replicate (k : Nat) (b : Nat) :
    ∀ a, a ≤ b → List.Chain' (· ≤ ·) (a :: (List.replicate k b ++ [b])) := by
  induction k with
  | zero =>
    intro a h
    simp [List.chain'_cons, h]
  | succ j ih =>
    intro a h
    rw [List.replicate_succ, List.cons_append]
    exact List.chain'_cons.mpr ⟨h, ih b le_rfl⟩

/-- **C3.** A `chatMessage` call on an active task that streams `k` partial
snapshots and resolves: the emitted sequence is the task pushes followed by
the `CallResult` — the call resolution is the last event, no call
resolution occurs before it — and the conversation lengths of the pushed
snapshots are nondecreasing (the UI never sees state regress). -/
theorem chatMessage_stream_ordering (id : Nat) (t : MeltyTask) (text : String)
    (chunks : List String) :
    ((chatCall id t text (.success chunks)).2.getLast? =
      some (HostEvent.rpcResult id)) ∧
    ((chatCall id t text (.success chunks)).2.dropLast.all
      (fun e => !e.isRpcResponse)) ∧
    List.Chain' (· ≤ ·) (pushLengths (chatCall id t text (.success chunks)).2) := by
  have hev : (chatCall id t text (.success chunks)).2 =
      ([HostEvent.statusMsg "Starting up",
        HostEvent.pushTask (t.conversation ++ [⟨.human, text⟩])] ++
       (botPartials (t.conversation ++ [⟨.human, text⟩]) chunks).map
         HostEvent.pushTask ++
       [HostEvent.pushTask
          ((t.conversation ++ [⟨.human, text⟩]) ++ [⟨.bot, String.join chunks⟩]),
        HostEvent.statusReset]) ++ [HostEvent.rpcResult id] := rfl
  refine ⟨?_, ?_, ?_⟩
  · rw [hev, getLast_append_single]
  · rw [hev, dropLast_append_single]
    simp [List.all_append, List.all_eq_true, HostEvent.isRpcResponse]
  · have key : pushLengths ((chatCall id t text (.success chunks)).2) =
        (t.conversation.length + 1) ::
          (List.replicate chunks.length (t.conversation.length + 1 + 1) ++
            [t.conversation.length + 1 + 1]) := by
      rw [hev, pushLengths_append, pushLengths_append, pushLengths_append,
        pushLengths_map_pushTask, botPartials_lengths]
      simp [pushLengths, List.length_append]
    rw [key]
    exact chain_le_cons_replicate chunks.length (t.conversation.length + 1 + 1)
      (t.conversation.length + 1) (by omega)

/-- **C8.** When producing the bot response fails with message `msg`, the
failure is dual-reported: an Error turn holding `msg` is appended to the
task's conversation at its failure state, that updated conversation is
pushed to the UI, the global status message is reset, and the originating
call is still rejected with `msg` — in that order, at the end of the
event sequence. -/
theorem chatMessage_failure_dual_report (id : Nat) (t : MeltyTask) (text : String)
    (chunks : List String) (msg : String) :
    ((chatCall id t text (.failure chunks msg)).1.conversation =
      botFailConversation (t.respondHuman text).conversation chunks ++
        [⟨.error, msg⟩]) ∧
    List.IsSuffix
      [HostEvent.pushTask (chatCall id t text (.failure chunks msg)).1.conversation,
       HostEvent.statusReset, HostEvent.rpcError id msg]
      (chatCall id t text (.failure chunks msg)).2 := by
  constructor
  · rfl
  · refine ⟨([HostEvent.statusMsg "Starting up",
        HostEvent.pushTask (MeltyTask.respondHuman t text).conversation] ++
        (botPartials (MeltyTask.respondHuman t text).conversation chunks).map
          HostEvent.pushTask) ++
        [if msg = nullRepoMsg then
            HostEvent.editorError
              "Melty didn't see a git repo in your root directory. Create one?"
          else
            HostEvent.editorError
              ("Melty internal error: " ++ msg ++ ". Please try again.")], ?_⟩
    show _ ++ _ = (chatCall id t text (.failure chunks msg)).2
    simp [chatCall, rpcChatMessage, MeltyTask.addErrorJoule, MeltyTask.respondHuman]
